import Mathlib

/-!
# middleware/std/std.go

A shallow embedding of the `std` package of go-http-metrics: the response
observer `responseWriterInterceptor`, the two reporters `stdReporter` and
`ChiReporter`, and the measuring `Handler`.

Conventions of the embedding.

* Go's `int` is a two's complement machine integer of 32 or 64 bits
  (`IntSize`); `+=` on it wraps (`wrapInt`).
* A Go `error`, a nilable pointer and a nilable interface are an `Option`
  (`none` is `nil`).
* A call either returns a value or panics: `Except String α`, where
  `Except.error v` is a panic with value `v`.  The source has no `recover`,
  so a panic of the underlying sink passes through the observer unchanged.
* The underlying `http.ResponseWriter` is any deterministic implementation
  of the interface.  Its state is the list of calls it has received so far
  (`calls`), and what it answers is an arbitrary function of that history.
* The observer of one request is the single cell of the store threaded
  through the calls.  A reporter holds a pointer `w` to that cell, so the
  reporter methods that dereference `w` take the current observer as an
  argument.
-/

namespace std

/-! ## Machine integers -/

/-- The size of Go's `int` on the target platform. -/
inductive IntSize where
  | bits32
  | bits64
  deriving DecidableEq, Repr

/-- Number of bits of Go's `int`. -/
def IntSize.bits : IntSize → Nat
  | .bits32 => 32
  | .bits64 => 64

/-- The largest value of Go's `int` (math.MaxInt). -/
def IntSize.MaxInt (arch : IntSize) : Int := 2 ^ (arch.bits - 1) - 1

/-- The smallest value of Go's `int` (math.MinInt). -/
def IntSize.MinInt (arch : IntSize) : Int := -(2 ^ (arch.bits - 1))

/-- Two's complement wraparound of a mathematical integer into Go's `int`. -/
def wrapInt (arch : IntSize) (x : Int) : Int :=
  (x + 2 ^ (arch.bits - 1)) % 2 ^ arch.bits - 2 ^ (arch.bits - 1)

/-! ## The environment: net, bufio, net/http -/

/-- A Go `error`: `none` is `nil`, `some msg` an error with that message. -/
abbrev GoError := Option String

namespace net

/-- A network connection (`net.Conn`), identified by its descriptor. -/
structure Conn where
  fd : Nat
  deriving DecidableEq, Repr

end net

namespace bufio

/-- A buffered reader and writer (`*bufio.ReadWriter`). -/
structure ReadWriter where
  buffered : List UInt8
  deriving DecidableEq, Repr

end bufio

/-- What `Hijack` returns: `(net.Conn, *bufio.ReadWriter, error)`. -/
abbrev HijackResult := Option net.Conn × Option bufio.ReadWriter × GoError

/-- A method call on a response sink. -/
inductive Call where
  | Header
  | WriteHeader (statusCode : Int)
  | Write (p : List UInt8)
  | Flush
  | Hijack
  deriving DecidableEq, Repr

namespace http

/-- The constant `http.StatusOK`. -/
def StatusOK : Int := 200

/-- An implementation of the interface `http.ResponseWriter`, with the calls
it has received so far.  `panics`, `onWrite` and `onHijack` say what a call
does given that history; `isFlusher` and `onHijack` say which of the optional
interfaces `http.Flusher` and `http.Hijacker` the dynamic type implements. -/
structure ResponseWriter where
  calls : List Call
  panics : List Call → Call → Option String
  onWrite : List Call → List UInt8 → Int × GoError
  isFlusher : Bool
  onHijack : Option (List Call → HijackResult)

/-- The sink receives call `c`, which returns `v` unless the sink panics. -/
def ResponseWriter.invoke {α : Type} (w : ResponseWriter) (c : Call) (v : α) :
    Except String α × ResponseWriter :=
  (match w.panics w.calls c with
    | some e => Except.error e
    | none => Except.ok v,
   { w with calls := w.calls ++ [c] })

/-- The sink's own `Header()`. -/
def ResponseWriter.Header (w : ResponseWriter) : Except String Unit × ResponseWriter :=
  w.invoke Call.Header ()

/-- The sink's own `WriteHeader(statusCode)`. -/
def ResponseWriter.WriteHeader (w : ResponseWriter) (statusCode : Int) :
    Except String Unit × ResponseWriter :=
  w.invoke (Call.WriteHeader statusCode) ()

/-- The sink's own `Write(p)`. -/
def ResponseWriter.Write (w : ResponseWriter) (p : List UInt8) :
    Except String (Int × GoError) × ResponseWriter :=
  w.invoke (Call.Write p) (w.onWrite w.calls p)

/-- A sink seen through the interface `http.Flusher`. -/
structure Flusher where
  rw : ResponseWriter

/-- The type assertion `w.(http.Flusher)`: `none` when it fails. -/
def ResponseWriter.asFlusher (w : ResponseWriter) : Option Flusher :=
  if w.isFlusher then some ⟨w⟩ else none

/-- The sink's own `Flush()`. -/
def Flusher.Flush (f : Flusher) : Except String Unit × ResponseWriter :=
  f.rw.invoke Call.Flush ()

/-- A sink seen through the interface `http.Hijacker`. -/
structure Hijacker where
  rw : ResponseWriter
  answer : List Call → HijackResult

/-- The type assertion `w.(http.Hijacker)`: `none` when it fails. -/
def ResponseWriter.asHijacker (w : ResponseWriter) : Option Hijacker :=
  match w.onHijack with
  | none => none
  | some f => some ⟨w, f⟩

/-- The sink's own `Hijack()`. -/
def Hijacker.Hijack (h : Hijacker) : Except String HijackResult × ResponseWriter :=
  h.rw.invoke Call.Hijack (h.answer h.rw.calls)

end http

/-! ## The response observer (std.go, lines 80-113) -/

/-- The struct `responseWriterInterceptor`: the embedded `http.ResponseWriter`
and the two recorded fields. -/
structure responseWriterInterceptor where
  ResponseWriter : http.ResponseWriter
  statusCode : Int
  bytesWritten : Int

/-- The method `Header`, promoted from the embedded `http.ResponseWriter`. -/
def responseWriterInterceptor.Header (w : responseWriterInterceptor) :
    Except String Unit × responseWriterInterceptor :=
  let res := w.ResponseWriter.Header
  (res.1, { w with ResponseWriter := res.2 })

/-- The method `WriteHeader` (lines 88-91). -/
def responseWriterInterceptor.WriteHeader (w : responseWriterInterceptor) (statusCode : Int) :
    Except String Unit × responseWriterInterceptor :=
  let w1 := { w with statusCode := statusCode }
  let res := w1.ResponseWriter.WriteHeader statusCode
  (res.1, { w1 with ResponseWriter := res.2 })

/-- The method `Write` (lines 93-96). -/
def responseWriterInterceptor.Write (arch : IntSize) (w : responseWriterInterceptor)
    (p : List UInt8) : Except String (Int × GoError) × responseWriterInterceptor :=
  let w1 := { w with bytesWritten := wrapInt arch (w.bytesWritten + (p.length : Int)) }
  let res := w1.ResponseWriter.Write p
  (res.1, { w1 with ResponseWriter := res.2 })

/-- The method `Hijack` (lines 98-104). -/
def responseWriterInterceptor.Hijack (w : responseWriterInterceptor) :
    Except String HijackResult × responseWriterInterceptor :=
  match w.ResponseWriter.asHijacker with
  | none =>
    (Except.ok (none, none,
      some "type assertion failed http.ResponseWriter not a http.Hijacker"), w)
  | some h =>
    let res := h.Hijack
    (res.1, { w with ResponseWriter := res.2 })

/-- The method `Flush` (lines 106-113). -/
def responseWriterInterceptor.Flush (w : responseWriterInterceptor) :
    Except String Unit × responseWriterInterceptor :=
  match w.ResponseWriter.asFlusher with
  | none => (Except.ok (), w)
  | some f =>
    let res := f.Flush
    (res.1, { w with ResponseWriter := res.2 })

/-! ## Requests and routing metadata -/

namespace chi

/-- Modelled from the spec: the routing context chi attaches to a request
(`chi.Context` of the go-chi package, which is not part of the sources),
reduced to what the reporter reads from it, "the matched route's normalized
pattern string". -/
structure Context where
  pattern : String
  deriving DecidableEq, Repr

end chi

namespace context

/-- A `context.Context`: `routeCtx` is what the context holds under the key
`chi.RouteCtxKey` (`none` when no chi router put anything there), `id` stands
for everything else the context carries. -/
structure Context where
  id : Nat
  routeCtx : Option chi.Context
  deriving DecidableEq, Repr

end context

namespace chi

/-- Modelled from the spec: `chi.RouteContext` of the go-chi package, which is
not part of the sources.  It is the "lookup keyed by the request's
cancellation context": the routing context stored in `ctx`, `nil` when there
is none. -/
def RouteContext (ctx : context.Context) : Option Context := ctx.routeCtx

/-- Modelled from the spec: the method `RoutePattern` of `*chi.Context` of the
go-chi package, which is not part of the sources.  The receiver is a nilable
pointer.  It returns "the matched route's normalized pattern string, or empty
if unmatched". -/
def RoutePattern : Option Context → String
  | none => ""
  | some x => x.pattern

end chi

namespace url

/-- The part of `url.URL` the package reads. -/
structure URL where
  Path : String
  deriving DecidableEq, Repr

end url

namespace http

/-- The part of `http.Request` the package reads: the method, the URL and the
request's context (returned by `r.Context()`). -/
structure Request where
  Method : String
  URL : url.URL
  ctx : context.Context
  deriving DecidableEq, Repr

/-- The method `Context` of `*http.Request`. -/
def Request.Context (r : Request) : context.Context := r.ctx

end http

/-! ## The two reporters (std.go, lines 15-31 and 65-78) -/

/-- The struct `ChiReporter`: the request `r`; the field `w` points to the
observer of the request, passed to the methods that read it. -/
structure ChiReporter where
  r : http.Request
  deriving DecidableEq, Repr

/-- The method `Method` of `ChiReporter` (line 20). -/
def ChiReporter.Method (c : ChiReporter) : String := c.r.Method

/-- The method `Context` of `ChiReporter` (line 22). -/
def ChiReporter.Context (c : ChiReporter) : context.Context := c.r.Context

/-- The method `URLPath` of `ChiReporter` (lines 24-27). -/
def ChiReporter.URLPath (c : ChiReporter) : String :=
  chi.RoutePattern (chi.RouteContext c.r.Context)

/-- The method `StatusCode` of `ChiReporter` (line 29), reading `c.w`. -/
def ChiReporter.StatusCode (_c : ChiReporter) (w : responseWriterInterceptor) : Int :=
  w.statusCode

/-- The method `BytesWritten` of `ChiReporter` (line 31), reading `c.w`; the
conversion `int64(...)` of an `int` keeps the value. -/
def ChiReporter.BytesWritten (_c : ChiReporter) (w : responseWriterInterceptor) : Int :=
  w.bytesWritten

/-- The struct `stdReporter`: the request `r`; the field `w` points to the
observer of the request, passed to the methods that read it. -/
structure stdReporter where
  r : http.Request
  deriving DecidableEq, Repr

/-- The method `Method` of `stdReporter` (line 70). -/
def stdReporter.Method (s : stdReporter) : String := s.r.Method

/-- The method `Context` of `stdReporter` (line 72). -/
def stdReporter.Context (s : stdReporter) : context.Context := s.r.Context

/-- The method `URLPath` of `stdReporter` (line 74). -/
def stdReporter.URLPath (s : stdReporter) : String := s.r.URL.Path

/-- The method `StatusCode` of `stdReporter` (line 76), reading `s.w`. -/
def stdReporter.StatusCode (_s : stdReporter) (w : responseWriterInterceptor) : Int :=
  w.statusCode

/-- The method `BytesWritten` of `stdReporter` (line 78), reading `s.w`; the
conversion `int64(...)` of an `int` keeps the value. -/
def stdReporter.BytesWritten (_s : stdReporter) (w : responseWriterInterceptor) : Int :=
  w.bytesWritten

/-! ## The measurement engine (package middleware) -/

namespace middleware

/-- The interface `middleware.Reporter` with its two implementations in this
package: a value of the interface is one of the two reporters. -/
inductive Reporter where
  | std (s : stdReporter)
  | chi (c : ChiReporter)
  deriving DecidableEq, Repr

/-- Dynamic dispatch of `Method`. -/
def Reporter.Method : Reporter → String
  | .std s => s.Method
  | .chi c => c.Method

/-- Dynamic dispatch of `Context`. -/
def Reporter.Context : Reporter → context.Context
  | .std s => s.Context
  | .chi c => c.Context

/-- Dynamic dispatch of `URLPath`. -/
def Reporter.URLPath : Reporter → String
  | .std s => s.URLPath
  | .chi c => c.URLPath

/-- Dynamic dispatch of `StatusCode`. -/
def Reporter.StatusCode : Reporter → responseWriterInterceptor → Int
  | .std s => s.StatusCode
  | .chi c => c.StatusCode

/-- Dynamic dispatch of `BytesWritten`. -/
def Reporter.BytesWritten : Reporter → responseWriterInterceptor → Int
  | .std s => s.BytesWritten
  | .chi c => c.BytesWritten

/-- Modelled from the spec: the part of `middleware.Config` the package reads,
"configuration() -> (UseChi: bool, ...other opaque options)"; the declaration
is not part of the sources. -/
structure Config where
  UseChi : Bool
  deriving DecidableEq, Repr

/-- The callback handed to `Measure`: it runs on the observer and returns or
panics. -/
abbrev Callback := responseWriterInterceptor → Except String Unit × responseWriterInterceptor

/-- A measurement engine (`middleware.Middleware`) with state `μ`: its
configuration and its `Measure`, which may do anything with the handler ID,
the reporter and the callback it is given. -/
structure Middleware (μ : Type) where
  cfg : Config
  Measure : String → Reporter → Callback → responseWriterInterceptor → μ →
    Except String Unit × responseWriterInterceptor × μ

/-- The method `Config` of `middleware.Middleware`. -/
def Middleware.Config {μ : Type} (m : Middleware μ) : Config := m.cfg

end middleware

/-! ## Handlers -/

/-- What the code of a handler does with the `http.ResponseWriter` it is given:
it returns, panics, or calls one of the methods and goes on according to the
outcome of the call (a panic of the call included, which it may recover). -/
inductive Behaviour where
  | ret : Behaviour
  | raise (v : String) : Behaviour
  | Header (k : Except String Unit → Behaviour) : Behaviour
  | WriteHeader (statusCode : Int) (k : Except String Unit → Behaviour) : Behaviour
  | Write (p : List UInt8) (k : Except String (Int × GoError) → Behaviour) : Behaviour
  | Flush (k : Except String Unit → Behaviour) : Behaviour
  | Hijack (k : Except String HijackResult → Behaviour) : Behaviour

/-- The handler code runs against the observer: the way it ends and the
observer it leaves. -/
def Behaviour.run (arch : IntSize) :
    Behaviour → responseWriterInterceptor → Except String Unit × responseWriterInterceptor
  | .ret, w => (Except.ok (), w)
  | .raise v, w => (Except.error v, w)
  | .Header k, w => (k w.Header.1).run arch w.Header.2
  | .WriteHeader c k, w => (k (w.WriteHeader c).1).run arch (w.WriteHeader c).2
  | .Write p k, w => (k (w.Write arch p).1).run arch (w.Write arch p).2
  | .Flush k, w => (k w.Flush.1).run arch w.Flush.2
  | .Hijack k, w => (k w.Hijack.1).run arch w.Hijack.2

/-- The calls the handler code makes on the observer, in order, when it runs
against the observer `w`. -/
def Behaviour.made (arch : IntSize) : Behaviour → responseWriterInterceptor → List Call
  | .ret, _ => []
  | .raise _, _ => []
  | .Header k, w => Call.Header :: (k w.Header.1).made arch w.Header.2
  | .WriteHeader c k, w =>
    Call.WriteHeader c :: (k (w.WriteHeader c).1).made arch (w.WriteHeader c).2
  | .Write p k, w => Call.Write p :: (k (w.Write arch p).1).made arch (w.Write arch p).2
  | .Flush k, w => Call.Flush :: (k w.Flush.1).made arch w.Flush.2
  | .Hijack k, w => Call.Hijack :: (k w.Hijack.1).made arch w.Hijack.2

namespace http

/-- An `http.Handler`: what its `ServeHTTP` does for each request. -/
structure Handler where
  serve : Request → Behaviour

/-- The call `h.ServeHTTP(w, r)` with the observer as the response writer. -/
def Handler.ServeHTTP (arch : IntSize) (h : Handler) (w : responseWriterInterceptor)
    (r : Request) : Except String Unit × responseWriterInterceptor :=
  (h.serve r).run arch w

end http

/-- The function `Handler` (lines 34-55): the returned handler, applied to
the response writer `w` and the request `r`, with the engine in state `s`. -/
def Handler {μ : Type} (arch : IntSize) (handlerID : String) (m : middleware.Middleware μ)
    (h : http.Handler) (w : http.ResponseWriter) (r : http.Request) (s : μ) :
    Except String Unit × responseWriterInterceptor × μ :=
  let wi : responseWriterInterceptor :=
    { statusCode := http.StatusOK, ResponseWriter := w, bytesWritten := 0 }
  let reporter : middleware.Reporter := middleware.Reporter.std { r := r }
  let reporter : middleware.Reporter :=
    if m.Config.UseChi then middleware.Reporter.chi { r := r } else reporter
  m.Measure handlerID reporter (fun wi => h.ServeHTTP arch wi r) wi s

/-- The function `HandlerProvider` (lines 59-63). -/
def HandlerProvider {μ : Type} (arch : IntSize) (handlerID : String)
    (m : middleware.Middleware μ) (next : http.Handler) (w : http.ResponseWriter)
    (r : http.Request) (s : μ) : Except String Unit × responseWriterInterceptor × μ :=
  Handler arch handlerID m next w r s

/-! ## Sequences of calls on the observer -/

/-- One call on the observer; the outcome of the call is dropped. -/
def step (arch : IntSize) (w : responseWriterInterceptor) : Call → responseWriterInterceptor
  | .Header => w.Header.2
  | .WriteHeader c => (w.WriteHeader c).2
  | .Write p => (w.Write arch p).2
  | .Flush => w.Flush.2
  | .Hijack => w.Hijack.2

/-- A finite sequence of calls on the observer, in order. -/
def steps (arch : IntSize) (w : responseWriterInterceptor) (cs : List Call) :
    responseWriterInterceptor :=
  cs.foldl (step arch) w

/-- The payloads of the `Write` calls of a sequence, in order. -/
def payloads : List Call → List (List UInt8)
  | [] => []
  | .Write p :: cs => p :: payloads cs
  | _ :: cs => payloads cs

/-- The sum of `len(p)` over the `Write` payloads of a sequence. -/
def totalLen (cs : List Call) : Nat := ((payloads cs).map List.length).sum

/-- The arguments of the `WriteHeader` calls of a sequence, in order. -/
def statuses : List Call → List Int
  | [] => []
  | .WriteHeader c :: cs => c :: statuses cs
  | _ :: cs => statuses cs

/-! ## Concrete sinks, requests and handlers used in the examples -/

/-- A sink that implements neither `http.Flusher` nor `http.Hijacker`, never
panics and writes every payload in full. -/
def plainSink : http.ResponseWriter :=
  { calls := []
    panics := fun _ _ => none
    onWrite := fun _ p => ((p.length : Int), none)
    isFlusher := false
    onHijack := none }

/-- A sink that implements `http.Flusher` and `http.Hijacker`, whose `Write`
is short (two bytes at most, with an error) and whose `Hijack` succeeds. -/
def fullSink : http.ResponseWriter :=
  { calls := []
    panics := fun _ _ => none
    onWrite := fun _ p => if p.length ≤ 2 then ((p.length : Int), none) else (2, some "short write")
    isFlusher := true
    onHijack := some (fun _ => (some ⟨7⟩, some ⟨[]⟩, none)) }

/-- A sink whose `Hijack` is implemented and fails, and whose `Write` panics. -/
def brokenSink : http.ResponseWriter :=
  { calls := []
    panics := fun _ c => match c with
      | Call.Write _ => some "broken pipe"
      | _ => none
    onWrite := fun _ _ => (0, none)
    isFlusher := true
    onHijack := some (fun _ => (none, none, some "connection already hijacked")) }

/-- A payload of one GiB (2^30 bytes). -/
def oneGiB : List UInt8 := List.replicate (2 ^ 30) 0

/-- A request for `/users/42` that went through no chi router. -/
def plainRequest : http.Request :=
  { Method := "GET", URL := { Path := "/users/42" }, ctx := { id := 0, routeCtx := none } }

/-- A request for `/users/42` matched by a chi route with a parameter. -/
def routedRequest : http.Request :=
  { Method := "GET"
    URL := { Path := "/users/42" }
    ctx := { id := 1, routeCtx := some { pattern := "/users/\x7bid\x7d" } } }

/-- A handler that writes a body of ten bytes in two pieces, flushes in
between and never sets a status. -/
def tenBytes : http.Handler :=
  { serve := fun _ =>
      Behaviour.Write [104, 101, 108, 108, 111, 44] fun _ =>
      Behaviour.Flush fun _ =>
      Behaviour.Write [119, 111, 114, 108] fun _ =>
      Behaviour.ret }

/-- A handler that writes the same payload of one GiB twice. -/
def twoGiB : http.Handler :=
  { serve := fun _ =>
      Behaviour.Write oneGiB fun _ =>
      Behaviour.Write oneGiB fun _ =>
      Behaviour.ret }

/-- The handler code that writes the payload `p` to the response `k` times and
returns, whatever the writes answer. -/
def writeMany : Nat → List UInt8 → Behaviour
  | 0, _ => Behaviour.ret
  | k + 1, p => Behaviour.Write p fun _ => writeMany k p

/-- A handler that writes the same payload of one GiB 2^33 times (8 EiB). -/
def eightEiB : http.Handler :=
  { serve := fun _ => writeMany (2 ^ 33) oneGiB }

/-- What an engine has read from a reporter. -/
structure Observation where
  handlerID : String
  method : String
  urlPath : String
  statusCode : Int
  bytesWritten : Int
  deriving DecidableEq, Repr

/-- An engine for the examples: its `Measure` calls the callback once and,
when the callback is over, reads the reporter. -/
def probe (cfg : middleware.Config) : middleware.Middleware (Option Observation) :=
  { cfg := cfg
    Measure := fun handlerID reporter next wi _ =>
      let res := next wi
      (res.1, res.2,
        some { handlerID := handlerID
               method := reporter.Method
               urlPath := reporter.URLPath
               statusCode := reporter.StatusCode res.2
               bytesWritten := reporter.BytesWritten res.2 }) }

/-! ## Lemmas on machine integers -/

theorem two_pow_bits_pos (arch : IntSize) : (0 : Int) < 2 ^ (arch.bits - 1) := by
  positivity

theorem two_pow_bits_double (arch : IntSize) :
    (2 : Int) ^ arch.bits = 2 ^ (arch.bits - 1) + 2 ^ (arch.bits - 1) := by
  cases arch <;> simp [IntSize.bits]

theorem wrapInt_of_range (arch : IntSize) (x : Int) (hlo : arch.MinInt ≤ x)
    (hhi : x ≤ arch.MaxInt) : wrapInt arch x = x := by
  unfold IntSize.MinInt at hlo
  unfold IntSize.MaxInt at hhi
  unfold wrapInt
  have hp := two_pow_bits_pos arch
  have hd := two_pow_bits_double arch
  rw [Int.emod_eq_of_lt (by omega) (by omega)]
  omega

theorem wrapInt_range (arch : IntSize) (x : Int) :
    arch.MinInt ≤ wrapInt arch x ∧ wrapInt arch x ≤ arch.MaxInt := by
  unfold IntSize.MinInt IntSize.MaxInt wrapInt
  have hp := two_pow_bits_pos arch
  have hd := two_pow_bits_double arch
  have h0 := Int.emod_nonneg (x + 2 ^ (arch.bits - 1)) (show (2 : Int) ^ arch.bits ≠ 0 by omega)
  have h1 := Int.emod_lt_of_pos (x + 2 ^ (arch.bits - 1)) (show (0 : Int) < 2 ^ arch.bits by omega)
  constructor <;> omega

theorem wrapInt_add_wrapInt (arch : IntSize) (x y : Int) :
    wrapInt arch (wrapInt arch x + y) = wrapInt arch (x + y) := by
  unfold wrapInt
  have e : (x + 2 ^ (arch.bits - 1)) % 2 ^ arch.bits - 2 ^ (arch.bits - 1) + y
      + 2 ^ (arch.bits - 1) = (x + 2 ^ (arch.bits - 1)) % 2 ^ arch.bits + y := by ring
  rw [e, Int.emod_add_emod]
  congr 2
  ring

theorem wrapInt_zero (arch : IntSize) : wrapInt arch 0 = 0 := by
  cases arch <;> simp [wrapInt, IntSize.bits]

theorem oneGiB_length : oneGiB.length = 2 ^ 30 := List.length_replicate _ _

/-! ## Lemmas on single calls and on sequences of calls -/

theorem step_bytesWritten (arch : IntSize) (w : responseWriterInterceptor) (c : Call) :
    (step arch w c).bytesWritten =
      match c with
      | Call.Write p => wrapInt arch (w.bytesWritten + (p.length : Int))
      | _ => w.bytesWritten := by
  cases c with
  | Header => rfl
  | WriteHeader c => rfl
  | Write p => rfl
  | Flush =>
    simp only [step, responseWriterInterceptor.Flush]
    cases w.ResponseWriter.asFlusher <;> rfl
  | Hijack =>
    simp only [step, responseWriterInterceptor.Hijack]
    cases w.ResponseWriter.asHijacker <;> rfl

theorem step_statusCode (arch : IntSize) (w : responseWriterInterceptor) (c : Call) :
    (step arch w c).statusCode =
      match c with
      | Call.WriteHeader v => v
      | _ => w.statusCode := by
  cases c with
  | Header => rfl
  | WriteHeader c => rfl
  | Write p => rfl
  | Flush =>
    simp only [step, responseWriterInterceptor.Flush]
    cases w.ResponseWriter.asFlusher <;> rfl
  | Hijack =>
    simp only [step, responseWriterInterceptor.Hijack]
    cases w.ResponseWriter.asHijacker <;> rfl

theorem steps_cons (arch : IntSize) (w : responseWriterInterceptor) (c : Call) (cs : List Call) :
    steps arch w (c :: cs) = steps arch (step arch w c) cs := rfl

theorem steps_append (arch : IntSize) (w : responseWriterInterceptor) (cs ds : List Call) :
    steps arch w (cs ++ ds) = steps arch (steps arch w cs) ds := by
  simp [steps, List.foldl_append]

theorem totalLen_cons_write (p : List UInt8) (cs : List Call) :
    totalLen (Call.Write p :: cs) = p.length + totalLen cs := by
  simp [totalLen, payloads]

theorem totalLen_replicate_write (k : Nat) (p : List UInt8) :
    totalLen (List.replicate k (Call.Write p)) = k * p.length := by
  induction k with
  | zero => simp [totalLen, payloads]
  | succ k ih => rw [List.replicate_succ, totalLen_cons_write, ih]; ring

theorem writeMany_made (arch : IntSize) (p : List UInt8) (k : Nat) :
    ∀ w : responseWriterInterceptor,
      (writeMany k p).made arch w = List.replicate k (Call.Write p) := by
  induction k with
  | zero => intro w; rfl
  | succ k ih => intro w; simp only [writeMany, Behaviour.made, ih, List.replicate_succ]

theorem statuses_replicate_write (k : Nat) (p : List UInt8) :
    statuses (List.replicate k (Call.Write p)) = [] := by
  induction k with
  | zero => rfl
  | succ k ih => rw [List.replicate_succ]; simpa [statuses] using ih

theorem steps_bytesWritten (arch : IntSize) (cs : List Call) :
    ∀ w : responseWriterInterceptor, wrapInt arch w.bytesWritten = w.bytesWritten →
      (steps arch w cs).bytesWritten = wrapInt arch (w.bytesWritten + (totalLen cs : Int)) := by
  induction cs with
  | nil =>
    intro w hw
    simpa [steps, totalLen, payloads] using hw.symm
  | cons c cs ih =>
    intro w hw
    rw [steps_cons]
    cases c with
    | Write p =>
      have hb : (step arch w (Call.Write p)).bytesWritten
          = wrapInt arch (w.bytesWritten + (p.length : Int)) := step_bytesWritten arch w _
      have hr := wrapInt_range arch (w.bytesWritten + (p.length : Int))
      rw [ih _ (by rw [hb]; exact wrapInt_of_range arch _ hr.1 hr.2), hb, wrapInt_add_wrapInt,
        totalLen_cons_write]
      congr 1
      push_cast
      ring
    | Header =>
      have hb : (step arch w Call.Header).bytesWritten = w.bytesWritten :=
        step_bytesWritten arch w _
      rw [ih _ (by rw [hb]; exact hw), hb]
      rfl
    | WriteHeader v =>
      have hb : (step arch w (Call.WriteHeader v)).bytesWritten = w.bytesWritten :=
        step_bytesWritten arch w _
      rw [ih _ (by rw [hb]; exact hw), hb]
      rfl
    | Flush =>
      have hb : (step arch w Call.Flush).bytesWritten = w.bytesWritten :=
        step_bytesWritten arch w _
      rw [ih _ (by rw [hb]; exact hw), hb]
      rfl
    | Hijack =>
      have hb : (step arch w Call.Hijack).bytesWritten = w.bytesWritten :=
        step_bytesWritten arch w _
      rw [ih _ (by rw [hb]; exact hw), hb]
      rfl

theorem steps_statusCode (arch : IntSize) (cs : List Call) :
    ∀ w : responseWriterInterceptor,
      (steps arch w cs).statusCode = ((statuses cs).getLast?).getD w.statusCode := by
  induction cs with
  | nil => intro w; rfl
  | cons c cs ih =>
    intro w
    rw [steps_cons, ih]
    cases c with
    | WriteHeader v =>
      have hs : (step arch w (Call.WriteHeader v)).statusCode = v := step_statusCode arch w _
      rw [hs]
      simp only [statuses]
      cases h : statuses cs with
      | nil => simp
      | cons a l => simp [List.getLast?_cons_cons, List.getLast?_eq_getLast _ (List.cons_ne_nil a l)]
    | Header =>
      have hs : (step arch w Call.Header).statusCode = w.statusCode := step_statusCode arch w _
      rw [hs]
      rfl
    | Write p =>
      have hs : (step arch w (Call.Write p)).statusCode = w.statusCode :=
        step_statusCode arch w _
      rw [hs]
      rfl
    | Flush =>
      have hs : (step arch w Call.Flush).statusCode = w.statusCode := step_statusCode arch w _
      rw [hs]
      rfl
    | Hijack =>
      have hs : (step arch w Call.Hijack).statusCode = w.statusCode := step_statusCode arch w _
      rw [hs]
      rfl

theorem run_eq_steps (arch : IntSize) (b : Behaviour) :
    ∀ w : responseWriterInterceptor, (b.run arch w).2 = steps arch w (b.made arch w) := by
  induction b with
  | ret => intro w; rfl
  | raise v => intro w; rfl
  | Header k ih => intro w; simp only [Behaviour.run, Behaviour.made, steps_cons, ih]; rfl
  | WriteHeader c k ih => intro w; simp only [Behaviour.run, Behaviour.made, steps_cons, ih]; rfl
  | Write p k ih => intro w; simp only [Behaviour.run, Behaviour.made, steps_cons, ih]; rfl
  | Flush k ih => intro w; simp only [Behaviour.run, Behaviour.made, steps_cons, ih]; rfl
  | Hijack k ih => intro w; simp only [Behaviour.run, Behaviour.made, steps_cons, ih]; rfl

theorem Handler_eq {μ : Type} (arch : IntSize) (handlerID : String)
    (m : middleware.Middleware μ) (h : http.Handler) (w : http.ResponseWriter)
    (r : http.Request) (s : μ) :
    Handler arch handlerID m h w r s =
      m.Measure handlerID
        (if m.Config.UseChi then middleware.Reporter.chi ⟨r⟩ else middleware.Reporter.std ⟨r⟩)
        (fun wi => h.ServeHTTP arch wi r)
        { ResponseWriter := w, statusCode := http.StatusOK, bytesWritten := 0 } s := rfl

theorem probe_reads (arch : IntSize) (handlerID : String) (cfg : middleware.Config)
    (h : http.Handler) (w : http.ResponseWriter) (r : http.Request) :
    (Handler arch handlerID (probe cfg) h w r none).2.2 =
      some { handlerID := handlerID
             method := r.Method
             urlPath := if cfg.UseChi then chi.RoutePattern (chi.RouteContext r.Context)
               else r.URL.Path
             statusCode :=
               (h.ServeHTTP arch ⟨w, http.StatusOK, 0⟩ r).2.statusCode
             bytesWritten :=
               (h.ServeHTTP arch ⟨w, http.StatusOK, 0⟩ r).2.bytesWritten } := by
  cases hu : cfg.UseChi <;> simp [Handler, probe, middleware.Middleware.Config, hu] <;>
    exact ⟨rfl, rfl, rfl, rfl⟩

/-! ## C1: the byte counter over a sequence of calls -/

/-- C1 as stated fails.  With a 32-bit `int`, an observer that starts at zero
and receives two writes of one GiB each (the sink never fails) ends with
`bytesWritten` equal to -2147483648, while the payload lengths sum to
2147483648.  With a 64-bit `int` the same happens after 2^33 writes of one
GiB: the sum is 2^63 and `bytesWritten` is -2^63. -/
theorem bytesWritten_sum_overflows :
    ((steps IntSize.bits32 ⟨plainSink, http.StatusOK, 0⟩
        [Call.Write oneGiB, Call.Write oneGiB]).bytesWritten = -2147483648
      ∧ (totalLen [Call.Write oneGiB, Call.Write oneGiB] : Int) = 2147483648
      ∧ (steps IntSize.bits32 ⟨plainSink, http.StatusOK, 0⟩
          [Call.Write oneGiB, Call.Write oneGiB]).bytesWritten
        ≠ (totalLen [Call.Write oneGiB, Call.Write oneGiB] : Int))
    ∧ ((steps IntSize.bits64 ⟨plainSink, http.StatusOK, 0⟩
        (List.replicate (2 ^ 33) (Call.Write oneGiB))).bytesWritten = -9223372036854775808
      ∧ (totalLen (List.replicate (2 ^ 33) (Call.Write oneGiB)) : Int) = 9223372036854775808
      ∧ (steps IntSize.bits64 ⟨plainSink, http.StatusOK, 0⟩
          (List.replicate (2 ^ 33) (Call.Write oneGiB))).bytesWritten
        ≠ (totalLen (List.replicate (2 ^ 33) (Call.Write oneGiB)) : Int)) := by
  have ht : (totalLen [Call.Write oneGiB, Call.Write oneGiB] : Int) = 2147483648 := by
    simp only [totalLen, payloads, List.map, List.sum_cons, List.sum_nil, oneGiB_length]
    norm_num
  have hb : (steps IntSize.bits32 ⟨plainSink, http.StatusOK, 0⟩
      [Call.Write oneGiB, Call.Write oneGiB]).bytesWritten = -2147483648 := by
    rw [steps_bytesWritten IntSize.bits32 _ _ (wrapInt_zero _), ht]
    simp only [wrapInt, IntSize.bits]
    norm_num
  have ht64 : (totalLen (List.replicate (2 ^ 33) (Call.Write oneGiB)) : Int)
      = 9223372036854775808 := by
    rw [totalLen_replicate_write, oneGiB_length]
    norm_num
  have hb64 : (steps IntSize.bits64 ⟨plainSink, http.StatusOK, 0⟩
      (List.replicate (2 ^ 33) (Call.Write oneGiB))).bytesWritten = -9223372036854775808 := by
    rw [steps_bytesWritten IntSize.bits64 _ _ (wrapInt_zero _), ht64]
    simp only [wrapInt, IntSize.bits]
    norm_num
  refine ⟨⟨hb, ht, ?_⟩, hb64, ht64, ?_⟩
  · rw [hb, ht]
    norm_num
  · rw [hb64, ht64]
    norm_num

/-- C1, amended: for every observer whose `bytesWritten` starts at 0 and every
finite sequence of calls (`Write` interleaved with `WriteHeader`, `Flush`,
`Header` and `Hijack`), whatever the underlying sink answers or panics with,
`bytesWritten` afterwards is the sum of `len(p)` over the `Write` payloads
wrapped into Go's `int`; it is that sum exactly whenever the sum does not
exceed the largest `int`, and `BytesWritten()` of either reporter returns
it. -/
theorem bytesWritten_eq_wrapped_sum (arch : IntSize) (w : responseWriterInterceptor)
    (cs : List Call) (rep : middleware.Reporter) (h0 : w.bytesWritten = 0) :
    (steps arch w cs).bytesWritten = wrapInt arch (totalLen cs : Int)
    ∧ ((totalLen cs : Int) ≤ arch.MaxInt →
        (steps arch w cs).bytesWritten = (totalLen cs : Int)
        ∧ rep.BytesWritten (steps arch w cs) = (totalLen cs : Int))
    ∧ rep.BytesWritten (steps arch w cs) = wrapInt arch (totalLen cs : Int) := by
  have hw : (steps arch w cs).bytesWritten = wrapInt arch (totalLen cs : Int) := by
    rw [steps_bytesWritten arch cs w (by rw [h0]; exact wrapInt_zero arch), h0, zero_add]
  have hr : rep.BytesWritten (steps arch w cs) = (steps arch w cs).bytesWritten := by
    cases rep <;> rfl
  have hmin : arch.MinInt ≤ (totalLen cs : Int) := by
    have hp := two_pow_bits_pos arch
    unfold IntSize.MinInt
    omega
  refine ⟨hw, fun hle => ?_, by rw [hr, hw]⟩
  rw [hr, hw, wrapInt_of_range arch _ hmin hle]
  exact ⟨rfl, rfl⟩

/-- C1, an instance: five bytes in two writes through a sink that writes
short and reports errors, with a `WriteHeader` and a `Flush` in between. -/
theorem bytesWritten_eq_wrapped_sum_witness :
    (steps IntSize.bits64 ⟨fullSink, http.StatusOK, 0⟩
        [Call.Write [1, 2, 3], Call.WriteHeader 404, Call.Flush, Call.Write [4, 5]]).bytesWritten
      = 5
    ∧ (middleware.Reporter.std ⟨plainRequest⟩).BytesWritten
        (steps IntSize.bits64 ⟨fullSink, http.StatusOK, 0⟩
          [Call.Write [1, 2, 3], Call.WriteHeader 404, Call.Flush, Call.Write [4, 5]]) = 5 :=
  (bytesWritten_eq_wrapped_sum IntSize.bits64 ⟨fullSink, http.StatusOK, 0⟩
    [Call.Write [1, 2, 3], Call.WriteHeader 404, Call.Flush, Call.Write [4, 5]]
    (middleware.Reporter.std ⟨plainRequest⟩) rfl).2.1 (by decide)

/-! ## C2: the recorded status -/

/-- C2: the observer built by `Handler` starts with status 200; after any
finite sequence of calls on it (`WriteHeader` interleaved with `Write`,
`Flush`, `Header` and `Hijack`) `StatusCode()` of either reporter returns 200
if `WriteHeader` was never called and the argument of the last `WriteHeader`
call otherwise (so `V` after a single call with `V`); `WriteHeader` stores any
integer verbatim. -/
theorem statusCode_eq_last_WriteHeader {μ : Type} (arch : IntSize) (handlerID : String)
    (m : middleware.Middleware μ) (h : http.Handler) (w : http.ResponseWriter)
    (r : http.Request) (s : μ) (cs : List Call) (rep : middleware.Reporter) :
    Handler arch handlerID m h w r s
        = m.Measure handlerID
            (if m.Config.UseChi then middleware.Reporter.chi ⟨r⟩
              else middleware.Reporter.std ⟨r⟩)
            (fun wi => h.ServeHTTP arch wi r) ⟨w, http.StatusOK, 0⟩ s
    ∧ rep.StatusCode (steps arch ⟨w, http.StatusOK, 0⟩ cs)
        = (match (statuses cs).getLast? with
           | none => 200
           | some v => v)
    ∧ (statuses cs = [] → rep.StatusCode (steps arch ⟨w, http.StatusOK, 0⟩ cs) = 200)
    ∧ (∀ V : Int, statuses cs = [V] →
        rep.StatusCode (steps arch ⟨w, http.StatusOK, 0⟩ cs) = V)
    ∧ (∀ (l : List Int) (V : Int), statuses cs = l ++ [V] →
        rep.StatusCode (steps arch ⟨w, http.StatusOK, 0⟩ cs) = V)
    ∧ (∀ (wi : responseWriterInterceptor) (V : Int),
        rep.StatusCode (wi.WriteHeader V).2 = V) := by
  have hr : ∀ wi, rep.StatusCode wi = wi.statusCode := by
    intro wi
    cases rep <;> rfl
  have hs := steps_statusCode arch cs ⟨w, http.StatusOK, 0⟩
  refine ⟨Handler_eq arch handlerID m h w r s, ?_, ?_, ?_, ?_, ?_⟩
  · rw [hr, hs]
    cases (statuses cs).getLast? <;> rfl
  · intro he
    rw [hr, hs, he]
    rfl
  · intro V he
    rw [hr, hs, he]
    rfl
  · intro l V he
    rw [hr, hs, he]
    simp
  · intro wi V
    rw [hr]
    rfl

/-- C2, an instance: no `WriteHeader` gives 200, and of 404 then 503 the
last one is reported. -/
theorem statusCode_eq_last_WriteHeader_witness :
    (middleware.Reporter.chi ⟨routedRequest⟩).StatusCode
        (steps IntSize.bits64 ⟨plainSink, http.StatusOK, 0⟩ [Call.Write [1], Call.Flush]) = 200
    ∧ (middleware.Reporter.chi ⟨routedRequest⟩).StatusCode
        (steps IntSize.bits64 ⟨plainSink, http.StatusOK, 0⟩
          [Call.WriteHeader 404, Call.Write [1], Call.WriteHeader 503, Call.Flush]) = 503 :=
  ⟨(statusCode_eq_last_WriteHeader IntSize.bits64 "id"
      (⟨⟨true⟩, fun _ _ _ wi u => (Except.ok (), wi, u)⟩ : middleware.Middleware Unit)
      tenBytes plainSink routedRequest () [Call.Write [1], Call.Flush]
      (middleware.Reporter.chi ⟨routedRequest⟩)).2.2.1 rfl,
   (statusCode_eq_last_WriteHeader IntSize.bits64 "id"
      (⟨⟨true⟩, fun _ _ _ wi u => (Except.ok (), wi, u)⟩ : middleware.Middleware Unit)
      tenBytes plainSink routedRequest ()
      [Call.WriteHeader 404, Call.Write [1], Call.WriteHeader 503, Call.Flush]
      (middleware.Reporter.chi ⟨routedRequest⟩)).2.2.2.2.1 [404] 503 rfl⟩

/-! ## C3: Hijack -/

theorem asHijacker_rw (w : http.ResponseWriter) (hj : http.Hijacker)
    (h : w.asHijacker = some hj) : hj.rw = w := by
  unfold http.ResponseWriter.asHijacker at h
  cases hf : w.onHijack with
  | none => rw [hf] at h; cases h
  | some f => rw [hf] at h; cases h; rfl

theorem asFlusher_rw (w : http.ResponseWriter) (f : http.Flusher)
    (h : w.asFlusher = some f) : f.rw = w := by
  unfold http.ResponseWriter.asFlusher at h
  cases hf : w.isFlusher with
  | false => rw [hf] at h; cases h
  | true => rw [hf] at h; cases h; rfl

theorem Hijacker_Hijack_calls (hj : http.Hijacker) :
    hj.Hijack.2.calls = hj.rw.calls ++ [Call.Hijack] := rfl

theorem Flusher_Flush_calls (f : http.Flusher) :
    f.Flush.2.calls = f.rw.calls ++ [Call.Flush] := rfl

/-- C3: when the underlying sink is not an `http.Hijacker`, `Hijack` returns a
nil connection, a nil buffered reader-writer and an error with a descriptive
message, and leaves the observer and the sink as they were (the sink receives
no call); when it is one, `Hijack` makes exactly one call on the sink, its
`Hijack`, and returns what that call returns (or panics as it does), leaving
`statusCode` and `bytesWritten` unchanged.  Hence `Hijack` returns a non-nil
error if and only if the sink is not an `http.Hijacker` or its own `Hijack`
returns one. -/
theorem Hijack_fails_iff (w : responseWriterInterceptor) :
    (w.ResponseWriter.asHijacker = none →
      w.Hijack = (Except.ok (none, none,
          some "type assertion failed http.ResponseWriter not a http.Hijacker"), w)
      ∧ w.Hijack.2.ResponseWriter.calls = w.ResponseWriter.calls)
    ∧ (∀ hj : http.Hijacker, w.ResponseWriter.asHijacker = some hj →
      hj.rw = w.ResponseWriter
      ∧ w.Hijack.1 = hj.Hijack.1
      ∧ w.Hijack.2 = { w with ResponseWriter := hj.Hijack.2 }
      ∧ w.Hijack.2.ResponseWriter.calls = w.ResponseWriter.calls ++ [Call.Hijack])
    ∧ ((∃ c b e, w.Hijack.1 = Except.ok (c, b, some e)) ↔
      (w.ResponseWriter.asHijacker = none
        ∨ ∃ hj : http.Hijacker, w.ResponseWriter.asHijacker = some hj
            ∧ ∃ c b e, hj.Hijack.1 = Except.ok (c, b, some e))) := by
  cases hh : w.ResponseWriter.asHijacker with
  | none =>
    have e : w.Hijack = (Except.ok (none, none,
        some "type assertion failed http.ResponseWriter not a http.Hijacker"), w) := by
      simp only [responseWriterInterceptor.Hijack, hh]
    refine ⟨fun _ => ⟨e, by rw [e]⟩, fun hj h => (by cases h), ?_⟩
    constructor
    · intro _
      exact Or.inl rfl
    · intro _
      exact ⟨none, none, _, by rw [e]⟩
  | some hj =>
    have e : w.Hijack = (hj.Hijack.1, { w with ResponseWriter := hj.Hijack.2 }) := by
      simp only [responseWriterInterceptor.Hijack, hh]
    have hrw := asHijacker_rw _ _ hh
    refine ⟨fun h => (by cases h), ?_, ?_⟩
    · intro hj2 h2
      cases h2
      refine ⟨hrw, by rw [e], by rw [e], ?_⟩
      rw [e]
      show hj.Hijack.2.calls = _
      rw [Hijacker_Hijack_calls, hrw]
    · rw [e]
      constructor
      · intro hx
        exact Or.inr ⟨hj, rfl, hx⟩
      · intro hx
        rcases hx with hx | ⟨hj2, h2, hx⟩
        · cases hx
        · cases h2
          exact hx

/-- C3, instances: a sink without `Hijack`, a sink whose `Hijack` succeeds and
a sink whose `Hijack` fails. -/
theorem Hijack_fails_iff_witness :
    ((⟨plainSink, 200, 0⟩ : responseWriterInterceptor).Hijack.1
        = Except.ok (none, none,
            some "type assertion failed http.ResponseWriter not a http.Hijacker")
      ∧ (⟨plainSink, 200, 0⟩ : responseWriterInterceptor).Hijack.2.ResponseWriter.calls = [])
    ∧ ((⟨fullSink, 200, 0⟩ : responseWriterInterceptor).Hijack.1
        = Except.ok (some ⟨7⟩, some ⟨[]⟩, none)
      ∧ (⟨fullSink, 200, 0⟩ : responseWriterInterceptor).Hijack.2.ResponseWriter.calls
        = [Call.Hijack])
    ∧ (∃ c b e, (⟨brokenSink, 200, 0⟩ : responseWriterInterceptor).Hijack.1
        = Except.ok (c, b, some e)) := by
  refine ⟨?_, ?_, ?_⟩
  · have h := (Hijack_fails_iff ⟨plainSink, 200, 0⟩).1 rfl
    exact ⟨by rw [h.1], h.2⟩
  · have h := (Hijack_fails_iff ⟨fullSink, 200, 0⟩).2.1 ⟨fullSink, fun _ => (some ⟨7⟩, some ⟨[]⟩, none)⟩ rfl
    exact ⟨h.2.1, h.2.2.2⟩
  · exact (Hijack_fails_iff ⟨brokenSink, 200, 0⟩).2.2.2
      (Or.inr ⟨⟨brokenSink, fun _ => (none, none, some "connection already hijacked")⟩, rfl,
        none, none, "connection already hijacked", rfl⟩)

/-! ## C4: Flush -/

/-- C4: when the underlying sink is not an `http.Flusher`, `Flush` returns
normally and leaves the observer and the sink as they were (the sink receives
no call); when it is one, `Flush` makes exactly one call on the sink, its
`Flush`; in both cases `statusCode` and `bytesWritten` are unchanged. -/
theorem Flush_frame (w : responseWriterInterceptor) :
    (w.ResponseWriter.asFlusher = none →
      w.Flush = (Except.ok (), w)
      ∧ w.Flush.2.ResponseWriter.calls = w.ResponseWriter.calls)
    ∧ (∀ f : http.Flusher, w.ResponseWriter.asFlusher = some f →
      f.rw = w.ResponseWriter
      ∧ w.Flush.1 = f.Flush.1
      ∧ w.Flush.2.ResponseWriter = f.Flush.2
      ∧ w.Flush.2.ResponseWriter.calls = w.ResponseWriter.calls ++ [Call.Flush])
    ∧ w.Flush.2.statusCode = w.statusCode
    ∧ w.Flush.2.bytesWritten = w.bytesWritten := by
  cases hh : w.ResponseWriter.asFlusher with
  | none =>
    have e : w.Flush = (Except.ok (), w) := by
      simp only [responseWriterInterceptor.Flush, hh]
    exact ⟨fun _ => ⟨e, by rw [e]⟩, fun f h => (by cases h), by rw [e], by rw [e]⟩
  | some f =>
    have e : w.Flush = (f.Flush.1, { w with ResponseWriter := f.Flush.2 }) := by
      simp only [responseWriterInterceptor.Flush, hh]
    have hrw := asFlusher_rw _ _ hh
    refine ⟨fun h => (by cases h), ?_, by rw [e], by rw [e]⟩
    intro f2 h2
    cases h2
    refine ⟨hrw, by rw [e], by rw [e], ?_⟩
    rw [e]
    show f.Flush.2.calls = _
    rw [Flusher_Flush_calls, hrw]

/-- C4, instances: a sink without `Flush` receives nothing, a sink with
`Flush` receives one `Flush`; the recorded fields stay. -/
theorem Flush_frame_witness :
    ((⟨plainSink, 404, 12⟩ : responseWriterInterceptor).Flush.1 = Except.ok ()
      ∧ (⟨plainSink, 404, 12⟩ : responseWriterInterceptor).Flush.2.ResponseWriter.calls = [])
    ∧ (⟨fullSink, 404, 12⟩ : responseWriterInterceptor).Flush.2.ResponseWriter.calls
        = [Call.Flush]
    ∧ (⟨fullSink, 404, 12⟩ : responseWriterInterceptor).Flush.2.statusCode = 404
    ∧ (⟨fullSink, 404, 12⟩ : responseWriterInterceptor).Flush.2.bytesWritten = 12 := by
  refine ⟨?_, ?_, ?_⟩
  · have h := (Flush_frame ⟨plainSink, 404, 12⟩).1 rfl
    exact ⟨by rw [h.1], h.2⟩
  · exact ((Flush_frame ⟨fullSink, 404, 12⟩).2.1 ⟨fullSink⟩ rfl).2.2.2
  · exact (Flush_frame ⟨fullSink, 404, 12⟩).2.2

/-! ## C9: a single Write -/

/-- C9 as stated fails.  With a 32-bit `int` and `bytesWritten` at 2147483647,
a `Write` of one byte leaves `bytesWritten` at -2147483648, which is not the
old value increased by `len(p)`; with a 64-bit `int` the same happens at
9223372036854775807. -/
theorem Write_increase_overflows :
    (((⟨plainSink, http.StatusOK, 2147483647⟩ : responseWriterInterceptor).Write
        IntSize.bits32 [0]).2.bytesWritten = -2147483648
      ∧ ((⟨plainSink, http.StatusOK, 2147483647⟩ : responseWriterInterceptor).Write
          IntSize.bits32 [0]).2.bytesWritten
        ≠ (⟨plainSink, http.StatusOK, 2147483647⟩ : responseWriterInterceptor).bytesWritten
            + (([0] : List UInt8).length : Int))
    ∧ (((⟨plainSink, http.StatusOK, 9223372036854775807⟩ : responseWriterInterceptor).Write
        IntSize.bits64 [0]).2.bytesWritten = -9223372036854775808
      ∧ ((⟨plainSink, http.StatusOK, 9223372036854775807⟩ : responseWriterInterceptor).Write
          IntSize.bits64 [0]).2.bytesWritten
        ≠ (⟨plainSink, http.StatusOK, 9223372036854775807⟩ :
              responseWriterInterceptor).bytesWritten
            + (([0] : List UInt8).length : Int)) := by
  have hb : ((⟨plainSink, http.StatusOK, 2147483647⟩ : responseWriterInterceptor).Write
      IntSize.bits32 [0]).2.bytesWritten = -2147483648 := by
    simp only [responseWriterInterceptor.Write, wrapInt, IntSize.bits, List.length_singleton]
    norm_num
  have hb64 : ((⟨plainSink, http.StatusOK, 9223372036854775807⟩ :
      responseWriterInterceptor).Write IntSize.bits64 [0]).2.bytesWritten
        = -9223372036854775808 := by
    simp only [responseWriterInterceptor.Write, wrapInt, IntSize.bits, List.length_singleton]
    norm_num
  refine ⟨⟨hb, ?_⟩, hb64, ?_⟩
  · rw [hb]
    simp only [List.length_singleton]
    norm_num
  · rw [hb64]
    simp only [List.length_singleton]
    norm_num

/-- C9, amended: `Write(p)` makes exactly one call on the underlying sink,
its `Write` with `p`, and returns what that call returns (or panics as it
does), a count that is the sink's and not `len(p)`; `statusCode` is unchanged;
`bytesWritten` becomes the old value plus `len(p)` wrapped into Go's `int`,
which is the old value plus `len(p)` whenever that does not exceed the largest
`int`; the counter is increased before the call, so also when the call
panics. -/
theorem Write_delegates (arch : IntSize) (w : responseWriterInterceptor) (p : List UInt8) :
    (w.Write arch p).1 = (w.ResponseWriter.Write p).1
    ∧ (w.Write arch p).2.ResponseWriter = (w.ResponseWriter.Write p).2
    ∧ (w.Write arch p).2.ResponseWriter.calls = w.ResponseWriter.calls ++ [Call.Write p]
    ∧ (w.ResponseWriter.panics w.ResponseWriter.calls (Call.Write p) = none →
        (w.Write arch p).1 = Except.ok (w.ResponseWriter.onWrite w.ResponseWriter.calls p))
    ∧ (∀ v : String, w.ResponseWriter.panics w.ResponseWriter.calls (Call.Write p) = some v →
        (w.Write arch p).1 = Except.error v)
    ∧ (w.Write arch p).2.statusCode = w.statusCode
    ∧ (w.Write arch p).2.bytesWritten = wrapInt arch (w.bytesWritten + (p.length : Int))
    ∧ (arch.MinInt ≤ w.bytesWritten → w.bytesWritten + (p.length : Int) ≤ arch.MaxInt →
        (w.Write arch p).2.bytesWritten = w.bytesWritten + (p.length : Int)) := by
  refine ⟨rfl, rfl, rfl, ?_, ?_, rfl, rfl, ?_⟩
  · intro hn
    simp only [responseWriterInterceptor.Write, http.ResponseWriter.Write,
      http.ResponseWriter.invoke, hn]
  · intro v hv
    simp only [responseWriterInterceptor.Write, http.ResponseWriter.Write,
      http.ResponseWriter.invoke, hv]
  · intro hlo hhi
    show wrapInt arch (w.bytesWritten + (p.length : Int)) = _
    exact wrapInt_of_range arch _ (by omega) hhi

/-- C9, instances: a short write of five bytes returns the sink's count 2 and
its error while the counter grows by 5; a write on a sink that panics passes
the panic on with the counter already increased. -/
theorem Write_delegates_witness :
    (((⟨fullSink, 201, 7⟩ : responseWriterInterceptor).Write IntSize.bits64
        [1, 2, 3, 4, 5]).1 = Except.ok (2, some "short write")
      ∧ ((⟨fullSink, 201, 7⟩ : responseWriterInterceptor).Write IntSize.bits64
        [1, 2, 3, 4, 5]).2.bytesWritten = 7 + 5)
    ∧ (((⟨brokenSink, 201, 7⟩ : responseWriterInterceptor).Write IntSize.bits64
        [1, 2, 3]).1 = Except.error "broken pipe"
      ∧ ((⟨brokenSink, 201, 7⟩ : responseWriterInterceptor).Write IntSize.bits64
        [1, 2, 3]).2.bytesWritten = 7 + 3) :=
  ⟨⟨(Write_delegates IntSize.bits64 ⟨fullSink, 201, 7⟩ [1, 2, 3, 4, 5]).2.2.2.1 rfl,
    (Write_delegates IntSize.bits64 ⟨fullSink, 201, 7⟩ [1, 2, 3, 4, 5]).2.2.2.2.2.2.2
      (by decide) (by decide)⟩,
   ⟨(Write_delegates IntSize.bits64 ⟨brokenSink, 201, 7⟩ [1, 2, 3]).2.2.2.2.1 "broken pipe" rfl,
    (Write_delegates IntSize.bits64 ⟨brokenSink, 201, 7⟩ [1, 2, 3]).2.2.2.2.2.2.2
      (by decide) (by decide)⟩⟩

/-! ## C10: the two reporters agree outside URLPath -/

/-- C10: over the same request and the same observer, in any state of the
observer, `stdReporter` and `ChiReporter` return the same `Method()`,
`Context()`, `StatusCode()` and `BytesWritten()`; `URLPath()` is the one
method on which they can differ, and on a request without routing metadata
whose path is not empty they do. -/
theorem reporters_agree (r : http.Request) (w : responseWriterInterceptor) :
    (stdReporter.mk r).Method = (ChiReporter.mk r).Method
    ∧ (stdReporter.mk r).Context = (ChiReporter.mk r).Context
    ∧ (stdReporter.mk r).StatusCode w = (ChiReporter.mk r).StatusCode w
    ∧ (stdReporter.mk r).BytesWritten w = (ChiReporter.mk r).BytesWritten w
    ∧ (middleware.Reporter.std ⟨r⟩).Method = (middleware.Reporter.chi ⟨r⟩).Method
    ∧ (middleware.Reporter.std ⟨r⟩).Context = (middleware.Reporter.chi ⟨r⟩).Context
    ∧ (middleware.Reporter.std ⟨r⟩).StatusCode w = (middleware.Reporter.chi ⟨r⟩).StatusCode w
    ∧ (middleware.Reporter.std ⟨r⟩).BytesWritten w
        = (middleware.Reporter.chi ⟨r⟩).BytesWritten w
    ∧ (stdReporter.mk plainRequest).URLPath ≠ (ChiReporter.mk plainRequest).URLPath :=
  ⟨rfl, rfl, rfl, rfl, rfl, rfl, rfl, rfl, by decide⟩

/-! ## C5, C6, C7: the route identifier -/

/-- C5: the reporter `Handler` passes to `Measure`, whatever `Measure` is, is
the `ChiReporter` over the request if and only if `UseChi` is true and the
`stdReporter` over the request if and only if it is false; with `UseChi`
false its `URLPath()` is the request's URL path as it is, so requests with
different paths get different identifiers. -/
theorem Handler_selects_reporter (arch : IntSize) (handlerID : String)
    (cfg : middleware.Config) (h : http.Handler) (w : http.ResponseWriter)
    (r : http.Request) :
    ∃ rep : middleware.Reporter,
      (∀ (μ : Type)
          (Measure : String → middleware.Reporter → middleware.Callback →
            responseWriterInterceptor → μ → Except String Unit × responseWriterInterceptor × μ)
          (s : μ),
          Handler arch handlerID ⟨cfg, Measure⟩ h w r s
            = Measure handlerID rep (fun wi => h.ServeHTTP arch wi r)
                ⟨w, http.StatusOK, 0⟩ s)
      ∧ (rep = middleware.Reporter.chi ⟨r⟩ ↔ cfg.UseChi = true)
      ∧ (rep = middleware.Reporter.std ⟨r⟩ ↔ cfg.UseChi = false)
      ∧ (cfg.UseChi = false → rep.URLPath = r.URL.Path)
      ∧ (∀ r1 r2 : http.Request, r1.URL.Path ≠ r2.URL.Path →
          (middleware.Reporter.std ⟨r1⟩).URLPath ≠ (middleware.Reporter.std ⟨r2⟩).URLPath)
      ∧ (middleware.Reporter.std
            ⟨{ Method := "GET", URL := ⟨"/users/123"⟩, ctx := ⟨0, none⟩ }⟩).URLPath
          ≠ (middleware.Reporter.std
            ⟨{ Method := "GET", URL := ⟨"/users/456"⟩, ctx := ⟨0, none⟩ }⟩).URLPath := by
  refine ⟨if cfg.UseChi then middleware.Reporter.chi ⟨r⟩ else middleware.Reporter.std ⟨r⟩,
    fun μ Measure s => Handler_eq arch handlerID ⟨cfg, Measure⟩ h w r s, ?_, ?_, ?_, ?_, ?_⟩
  · cases hu : cfg.UseChi <;> simp
  · cases hu : cfg.UseChi <;> simp
  · intro hu
    rw [hu]
    rfl
  · intro r1 r2 hne
    exact hne
  · decide

/-- C5, an instance: with `UseChi` false the engine reads `/users/42` for a
request of that path, with `UseChi` true the route template. -/
theorem Handler_selects_reporter_witness :
    (∃ o, (Handler IntSize.bits64 "id" (probe ⟨false⟩) tenBytes plainSink routedRequest none).2.2
        = some o ∧ o.urlPath = "/users/42")
    ∧ (∃ o, (Handler IntSize.bits64 "id" (probe ⟨true⟩) tenBytes plainSink routedRequest none).2.2
        = some o ∧ o.urlPath = "/users/\x7bid\x7d") := by
  constructor
  · obtain ⟨rep, hH, _, hstd, hpath, _⟩ :=
      Handler_selects_reporter IntSize.bits64 "id" ⟨false⟩ tenBytes plainSink routedRequest
    have e := hH _ (probe ⟨false⟩).Measure none
    exact ⟨_, congrArg (fun x => x.2.2) e, hpath rfl⟩
  · obtain ⟨rep, hH, hchi, _, _, _⟩ :=
      Handler_selects_reporter IntSize.bits64 "id" ⟨true⟩ tenBytes plainSink routedRequest
    have e := hH _ (probe ⟨true⟩).Measure none
    refine ⟨_, congrArg (fun x => x.2.2) e, ?_⟩
    rw [hchi.2 rfl]
    rfl

/-- C6: for a request whose context carries no chi routing context
(`chi.RouteContext` returns nil), `URLPath()` of the `ChiReporter` returns the
empty string; the method is total, it has no error result and no panic. -/
theorem ChiReporter_URLPath_no_route (r : http.Request)
    (h : chi.RouteContext r.Context = none) :
    (ChiReporter.mk r).URLPath = "" ∧ (middleware.Reporter.chi ⟨r⟩).URLPath = "" := by
  have e : (ChiReporter.mk r).URLPath = "" := by
    unfold ChiReporter.URLPath
    rw [h]
    rfl
  exact ⟨e, e⟩

/-- C6, an instance: a request that went through no chi router. -/
theorem ChiReporter_URLPath_no_route_witness :
    chi.RouteContext plainRequest.Context = none
    ∧ (ChiReporter.mk plainRequest).URLPath = "" :=
  ⟨rfl, (ChiReporter_URLPath_no_route plainRequest rfl).1⟩

/-- C7: with `UseChi` true and a routing context in the request's context
whose normalized pattern is `P`, the reporter `Handler` passes to `Measure`
returns `P` from `URLPath()`, and so does the reporter of every request with
the same context, whatever its URL path and method. -/
theorem ChiReporter_URLPath_pattern (arch : IntSize) (handlerID : String)
    (cfg : middleware.Config) (h : http.Handler) (w : http.ResponseWriter)
    (r : http.Request) (x : chi.Context) (P : String)
    (hu : cfg.UseChi = true) (hx : chi.RouteContext r.Context = some x)
    (hP : chi.RoutePattern (some x) = P) :
    ∃ rep : middleware.Reporter,
      (∀ (μ : Type)
          (Measure : String → middleware.Reporter → middleware.Callback →
            responseWriterInterceptor → μ → Except String Unit × responseWriterInterceptor × μ)
          (s : μ),
          Handler arch handlerID ⟨cfg, Measure⟩ h w r s
            = Measure handlerID rep (fun wi => h.ServeHTTP arch wi r)
                ⟨w, http.StatusOK, 0⟩ s)
      ∧ rep.URLPath = P
      ∧ (∀ r2 : http.Request, r2.Context = r.Context →
          (ChiReporter.mk r2).URLPath = P
          ∧ (middleware.Reporter.chi ⟨r2⟩).URLPath = rep.URLPath) := by
  have e : ∀ r2 : http.Request, r2.Context = r.Context → (ChiReporter.mk r2).URLPath = P := by
    intro r2 h2
    unfold ChiReporter.URLPath
    show chi.RoutePattern (chi.RouteContext r2.Context) = P
    rw [h2, hx, hP]
  refine ⟨middleware.Reporter.chi ⟨r⟩, fun μ Measure s => ?_, e r rfl, fun r2 h2 => ?_⟩
  · rw [Handler_eq]
    simp [middleware.Middleware.Config, hu]
  · exact ⟨e r2 h2, (e r2 h2).trans (e r rfl).symm⟩

/-- C7, an instance: a request for `/users/42` matched by a route with the
pattern of one parameter, and a request for `/users/7` with the same
context. -/
theorem ChiReporter_URLPath_pattern_witness :
    (∃ o, (Handler IntSize.bits64 "id" (probe ⟨true⟩) tenBytes plainSink routedRequest none).2.2
        = some o ∧ o.urlPath = "/users/\x7bid\x7d")
    ∧ (ChiReporter.mk { routedRequest with URL := ⟨"/users/7"⟩ }).URLPath
        = "/users/\x7bid\x7d" := by
  obtain ⟨rep, hH, hp, hall⟩ :=
    ChiReporter_URLPath_pattern IntSize.bits64 "id" ⟨true⟩ tenBytes plainSink routedRequest
      ⟨"/users/\x7bid\x7d"⟩ "/users/\x7bid\x7d" rfl rfl rfl
  exact ⟨⟨_, congrArg (fun x => x.2.2) (hH _ (probe ⟨true⟩).Measure none), hp⟩,
    (hall { routedRequest with URL := ⟨"/users/7"⟩ } rfl).1⟩

/-! ## C8: end to end -/

/-- C8 as stated fails.  With a 32-bit `int`, a handler that never sets a
status and writes the same payload of one GiB twice (2147483648 bytes in
all) makes the engine read `BytesWritten()` = -2147483648 from the reporter
once the callback is over.  With a 64-bit `int` the same happens for a handler
that writes one GiB 2^33 times: 2^63 bytes are reported as -2^63. -/
theorem Handler_bytes_overflow :
    (statuses ((twoGiB.serve plainRequest).made IntSize.bits32
        ⟨plainSink, http.StatusOK, 0⟩) = []
      ∧ (totalLen ((twoGiB.serve plainRequest).made IntSize.bits32
          ⟨plainSink, http.StatusOK, 0⟩) : Int) = 2147483648
      ∧ (Handler IntSize.bits32 "id" (probe ⟨false⟩) twoGiB plainSink plainRequest none).2.2
          = some ⟨"id", "GET", "/users/42", 200, -2147483648⟩)
    ∧ (statuses ((eightEiB.serve plainRequest).made IntSize.bits64
        ⟨plainSink, http.StatusOK, 0⟩) = []
      ∧ (totalLen ((eightEiB.serve plainRequest).made IntSize.bits64
          ⟨plainSink, http.StatusOK, 0⟩) : Int) = 9223372036854775808
      ∧ (Handler IntSize.bits64 "id" (probe ⟨false⟩) eightEiB plainSink plainRequest none).2.2
          = some ⟨"id", "GET", "/users/42", 200, -9223372036854775808⟩) := by
  have hm : (twoGiB.serve plainRequest).made IntSize.bits32 ⟨plainSink, http.StatusOK, 0⟩
      = [Call.Write oneGiB, Call.Write oneGiB] := by
    simp only [twoGiB, Behaviour.made]
  have ht : (totalLen [Call.Write oneGiB, Call.Write oneGiB] : Int) = 2147483648 := by
    simp only [totalLen, payloads, List.map, List.sum_cons, List.sum_nil, oneGiB_length]
    norm_num
  have hb : ((twoGiB.ServeHTTP IntSize.bits32 ⟨plainSink, http.StatusOK, 0⟩
      plainRequest).2).bytesWritten = -2147483648 := by
    unfold http.Handler.ServeHTTP
    rw [run_eq_steps, hm, steps_bytesWritten IntSize.bits32 _ _ (wrapInt_zero _), ht]
    simp only [wrapInt, IntSize.bits]
    norm_num
  have hc : ((twoGiB.ServeHTTP IntSize.bits32 ⟨plainSink, http.StatusOK, 0⟩
      plainRequest).2).statusCode = 200 := by
    unfold http.Handler.ServeHTTP
    rw [run_eq_steps, hm, steps_statusCode]
    rfl
  have hm64 : (eightEiB.serve plainRequest).made IntSize.bits64 ⟨plainSink, http.StatusOK, 0⟩
      = List.replicate (2 ^ 33) (Call.Write oneGiB) := writeMany_made _ _ _ _
  have ht64 : (totalLen (List.replicate (2 ^ 33) (Call.Write oneGiB)) : Int)
      = 9223372036854775808 := by
    rw [totalLen_replicate_write, oneGiB_length]
    norm_num
  have hb64 : ((eightEiB.ServeHTTP IntSize.bits64 ⟨plainSink, http.StatusOK, 0⟩
      plainRequest).2).bytesWritten = -9223372036854775808 := by
    unfold http.Handler.ServeHTTP
    rw [run_eq_steps, hm64, steps_bytesWritten IntSize.bits64 _ _ (wrapInt_zero _), ht64]
    simp only [wrapInt, IntSize.bits]
    norm_num
  have hc64 : ((eightEiB.ServeHTTP IntSize.bits64 ⟨plainSink, http.StatusOK, 0⟩
      plainRequest).2).statusCode = 200 := by
    unfold http.Handler.ServeHTTP
    rw [run_eq_steps, hm64, steps_statusCode, statuses_replicate_write]
    rfl
  refine ⟨⟨by rw [hm]; rfl, by rw [hm]; exact ht, ?_⟩,
    by rw [hm64]; exact statuses_replicate_write _ _, by rw [hm64]; exact ht64, ?_⟩
  · rw [probe_reads, hb, hc]
    rfl
  · rw [probe_reads, hb64, hc64]
    rfl

/-- C8, amended: `Handler` calls `Measure` once, whatever `Measure` is, with
the handler ID, a reporter and a callback that calls `h.ServeHTTP` once with
the observer and the request.  If the handler never calls `WriteHeader` and
its `Write` payloads total `n` bytes, with `n` not above the largest `int`,
then on the observer the callback leaves the reporter returns `StatusCode()`
= 200, `BytesWritten()` = `n`, `Method()` = the request's method and the
route identifier of the selected variant; on the observer as built it returns
`BytesWritten()` = 0, so it reads the observer and keeps no copy. -/
theorem Handler_reports_final_state (arch : IntSize) (handlerID : String)
    (cfg : middleware.Config) (h : http.Handler) (w : http.ResponseWriter)
    (r : http.Request) (n : Nat)
    (hs : statuses ((h.serve r).made arch ⟨w, http.StatusOK, 0⟩) = [])
    (hn : totalLen ((h.serve r).made arch ⟨w, http.StatusOK, 0⟩) = n)
    (hle : (n : Int) ≤ arch.MaxInt) :
    ∃ rep : middleware.Reporter,
      (∀ (μ : Type)
          (Measure : String → middleware.Reporter → middleware.Callback →
            responseWriterInterceptor → μ → Except String Unit × responseWriterInterceptor × μ)
          (s : μ),
          Handler arch handlerID ⟨cfg, Measure⟩ h w r s
            = Measure handlerID rep (fun wi => h.ServeHTTP arch wi r)
                ⟨w, http.StatusOK, 0⟩ s)
      ∧ rep.StatusCode (h.ServeHTTP arch ⟨w, http.StatusOK, 0⟩ r).2 = 200
      ∧ rep.BytesWritten (h.ServeHTTP arch ⟨w, http.StatusOK, 0⟩ r).2 = (n : Int)
      ∧ rep.Method = r.Method
      ∧ rep.URLPath
          = (if cfg.UseChi then chi.RoutePattern (chi.RouteContext r.Context) else r.URL.Path)
      ∧ rep.StatusCode ⟨w, http.StatusOK, 0⟩ = 200
      ∧ rep.BytesWritten ⟨w, http.StatusOK, 0⟩ = 0 := by
  have hrun : (h.ServeHTTP arch ⟨w, http.StatusOK, 0⟩ r).2
      = steps arch ⟨w, http.StatusOK, 0⟩ ((h.serve r).made arch ⟨w, http.StatusOK, 0⟩) :=
    run_eq_steps arch (h.serve r) _
  have hsc : (h.ServeHTTP arch ⟨w, http.StatusOK, 0⟩ r).2.statusCode = 200 := by
    rw [hrun, steps_statusCode, hs]
    rfl
  have hmin : arch.MinInt ≤ (n : Int) := by
    have hp := two_pow_bits_pos arch
    unfold IntSize.MinInt
    omega
  have hbw : (h.ServeHTTP arch ⟨w, http.StatusOK, 0⟩ r).2.bytesWritten = (n : Int) := by
    rw [hrun, steps_bytesWritten arch _ _ (wrapInt_zero arch), hn]
    show wrapInt arch (0 + (n : Int)) = n
    rw [zero_add, wrapInt_of_range arch _ hmin hle]
  refine ⟨if cfg.UseChi then middleware.Reporter.chi ⟨r⟩ else middleware.Reporter.std ⟨r⟩,
    fun μ Measure s => Handler_eq arch handlerID ⟨cfg, Measure⟩ h w r s, ?_⟩
  cases hu : cfg.UseChi
  · exact ⟨hsc, hbw, rfl, rfl, rfl, rfl⟩
  · exact ⟨hsc, hbw, rfl, rfl, rfl, rfl⟩

/-- C8, an instance: a handler that writes ten bytes and sets no status, behind
an engine that calls the callback and then reads the reporter. -/
theorem Handler_reports_final_state_witness :
    (Handler IntSize.bits64 "id" (probe ⟨false⟩) tenBytes fullSink plainRequest none).2.2
      = some ⟨"id", "GET", "/users/42", 200, 10⟩ := by
  obtain ⟨rep, hH, hsc, hbw, hm, hp, _, _⟩ :=
    Handler_reports_final_state IntSize.bits64 "id" ⟨false⟩ tenBytes fullSink plainRequest 10
      rfl rfl (by decide)
  refine (congrArg (fun x => x.2.2) (hH _ (probe ⟨false⟩).Measure none)).trans ?_
  show some (Observation.mk "id" rep.Method rep.URLPath
    (rep.StatusCode (tenBytes.ServeHTTP IntSize.bits64 ⟨fullSink, http.StatusOK, 0⟩
      plainRequest).2)
    (rep.BytesWritten (tenBytes.ServeHTTP IntSize.bits64 ⟨fullSink, http.StatusOK, 0⟩
      plainRequest).2)) = _
  rw [hsc, hbw, hm, hp]
  rfl

end std
